import Mathlib

/-!
Verification development for the ROOT parallel-execution core
(`core/imt/inc/ROOT/TNUMAExecutor.hxx`, which also carries the
`ROOT::Internal::TExecutor` facade and the `TThreadExecutor` alias header,
and `math/mathcore/inc/Fit/FitUtil.h`).

The shallow embedding models executors by their value semantics: a work
function is a pure Lean function, a reduction function is a function from a
list of partial results to a single result (mirroring the C++ `redfunc`
taking an `std::vector`), and every `Map`/`MapReduce` is a pure function on
lists.  The bodies of `TSequentialExecutor`, `TThreadExecutorImpl` and
`TProcessExecutor` are not part of this snapshot (only their declarations
and callers are), so they are modelled from the spec (sections 4.2 to 4.4);
every such definition is marked `Modelled from the spec:` in its doc
comment.  Everything else is translated from the source headers.
-/

namespace RootExec

/-- Execution policy enumeration from `ExecutionPolicy.hxx`, as used by the
`ROOT::Internal::TExecutor` facade: `kSerial`, `kMultithread`,
`kMultiprocess`. -/
inductive ExecutionPolicy
  | kSerial
  | kMultithread
  | kMultiprocess
deriving DecidableEq

/-- Constructor of `ROOT::Internal::TExecutor` (facade, lines 391 to 408 of
the concatenated header).  The `switch` on the policy builds the matching
backend; the `kMultithread` case exists only when the build has IMT
(`R__USE_IMT`), so without IMT that policy falls into the `default` branch,
which throws `std::invalid_argument`.  The build flag is the `imt`
parameter and the throw is an `Except.error`. -/
def texecConstruct (imt : Bool) (p : ExecutionPolicy) : Except String ExecutionPolicy :=
  match p with
  | ExecutionPolicy.kSerial => Except.ok p
  | ExecutionPolicy.kMultithread =>
      if imt then Except.ok p
      else Except.error "kMultithread policy not available when ROOT is compiled with IMT=OFF."
  | ExecutionPolicy.kMultiprocess => Except.ok p

/-- Modelled from the spec: automatic chunk-count heuristic of section 4.1
(the body of the chunking utility is not in this snapshot): a small
constant multiple of the pool size, bounded below by 1 and above by the
number of items. -/
def autoChunks (ps n : Nat) : Nat := max 1 (min n (4 * ps))

/-- Modelled from the spec: effective chunk count (section 4.1).  A
non-zero caller hint is used directly (clamped to the item count); zero
selects the automatic heuristic. -/
def effChunks (ps n c : Nat) : Nat := if c = 0 then autoChunks ps n else max 1 (min c n)

/-- Modelled from the spec: stride (chunk size) for a partition of `n`
items into `k` contiguous chunks, by ceiling division; the last chunk
absorbs the remainder (section 4.1). -/
def chunkStride (n k : Nat) : Nat := max 1 ((n + k - 1) / max 1 k)

/-- Modelled from the spec: the chunk partition loop.  Fuel-based
structural recursion (fuel is the list length, which always suffices since
each step consumes at least one element); each step takes one chunk of
`stride` items off the front. -/
def chunksOfFuel (fuel stride : Nat) (xs : List α) : List (List α) :=
  match fuel, xs with
  | _, [] => []
  | 0, x :: rest => [x :: rest]
  | fuel + 1, x :: rest =>
      if stride = 0 then [x :: rest]
      else (x :: rest).take stride :: chunksOfFuel fuel stride ((x :: rest).drop stride)

/-- Modelled from the spec: partition of a work list into contiguous chunks
for a pool of `ps` workers and chunk hint `c` (section 4.1); zero items
give zero chunks. -/
def chunkList (ps c : Nat) (xs : List α) : List (List α) :=
  match xs with
  | [] => []
  | x :: rest =>
      chunksOfFuel (x :: rest).length
        (chunkStride (x :: rest).length (effChunks ps (x :: rest).length c)) (x :: rest)

/-- Modelled from the spec: the chunked `Map` of the thread-pool backend
(section 4.3): each chunk is processed in one task that applies the work
function to every item of the chunk and folds the chunk's results with the
reduction function, giving one partial result per chunk. -/
def threadChunkedPartials (ps c : Nat) (f : ι → β) (items : List ι) (red : List β → β) :
    List β :=
  (chunkList ps c items).map (fun ch => red (ch.map f))

/-- Modelled from the spec: the thread-pool backend's `MapReduce` over an
explicit item list (section 4.3): chunked map, then the across-chunk
combination with the same reduction function. -/
def threadMapReduceItems (ps : Nat) (f : ι → β) (items : List ι) (red : List β → β)
    (c : Nat) : β :=
  red (threadChunkedPartials ps c f items red)

/-- Modelled from the spec: `TSequentialExecutor::Map(func, nTimes)`
(section 4.2): invokes the zero-argument work function `n` times in call
order. -/
def seqMapN (f : Unit → β) (n : Nat) : List β := (List.range n).map (fun _ => f ())

/-- Modelled from the spec: plain `Map(func, nTimes)` of the thread-pool
backend without a reduction function (section 4.3): one result per item,
positionally ordered. -/
def threadMapN (f : Unit → β) (n : Nat) : List β := (List.range n).map (fun _ => f ())

/-- Modelled from the spec: `TProcessExecutor::Map(func, nTimes)` (section
4.4, same external contract as the thread pool). -/
def procMapN (f : Unit → β) (n : Nat) : List β := (List.range n).map (fun _ => f ())

/-- Modelled from the spec: chunked `Map(func, nTimes, redfunc, nChunks)`
of the thread-pool backend (section 4.3) over the index range `[0, n)`. -/
def threadMapChunkedN (ps : Nat) (f : Unit → β) (n : Nat) (red : List β → β) (c : Nat) :
    List β :=
  threadChunkedPartials ps c (fun _ => f ()) (List.range n) red

/-- `ROOT::Internal::TExecutor::Map(func, nTimes)` (facade, lines 471 to
490): a `switch` on the configured policy forwards to the selected
backend's plain `Map`.  When the build has no IMT the `kMultithread` case
is compiled out and the `switch` falls into `default: break`, leaving the
result vector empty (that state is unreachable through the constructor,
which throws first). -/
def texecMapN (imt : Bool) (p : ExecutionPolicy) (f : Unit → β) (n : Nat) : List β :=
  match p with
  | ExecutionPolicy.kSerial => seqMapN f n
  | ExecutionPolicy.kMultithread => if imt then threadMapN f n else []
  | ExecutionPolicy.kMultiprocess => procMapN f n

/-- `ROOT::Internal::TExecutor::Map(func, nTimes, redfunc, nChunks)`
(facade, lines 526 to 534): under IMT, a multithread policy forwards to
the thread-pool backend's chunked algorithm; every other case ignores the
reduction function and the chunk hint and performs the plain `Map`. -/
def texecMapNChunked (imt : Bool) (p : ExecutionPolicy) (ps : Nat) (f : Unit → β) (n : Nat)
    (red : List β → β) (c : Nat) : List β :=
  if imt = true ∧ p = ExecutionPolicy.kMultithread then threadMapChunkedN ps f n red c
  else texecMapN imt p f n

/-- `TExecutorCRTP::Reduce(objs, redfunc)` as documented in the facade
header (the example at line 369 applies `redfunc` to the whole result
vector): a single application of the reduction function. -/
def texecReduce (red : List β → β) (xs : List β) : β := red xs

/-- `ROOT::Internal::TExecutor::MapReduce(func, nTimes, redfunc, nChunks)`
(facade, lines 673 to 676): `Reduce(Map(func, nTimes, redfunc, nChunks),
redfunc)`. -/
def texecMapReduceN (imt : Bool) (p : ExecutionPolicy) (ps : Nat) (f : Unit → β) (n : Nat)
    (red : List β → β) (c : Nat) : β :=
  texecReduce red (texecMapNChunked imt p ps f n red c)

/-- `TNUMAExecutor::MapReduce(func, nTimes, redfunc, nChunks)` (lines 71 to
84 and 240 to 253): each of the `fNDomains` domain tasks builds a
domain-local thread pool of `fDomainNThreads` workers and runs that pool's
`MapReduce` over all `nTimes` items (hint `nChunks / fNDomains` when
`nChunks` is non-zero, otherwise the automatic hint); the domain partials
are combined by the process executor's `MapReduce` with the same reduction
function. -/
def tnumaMapReduceN (fNDomains fDomainNThreads : Nat) (f : Unit → β) (nTimes : Nat)
    (red : List β → β) (nChunks : Nat) : β :=
  let runOnNode : Nat → β := fun _i =>
    if nChunks ≠ 0 then
      threadMapReduceItems fDomainNThreads (fun _ => f ()) (List.range nTimes) red
        (nChunks / fNDomains)
    else
      threadMapReduceItems fDomainNThreads (fun _ => f ()) (List.range nTimes) red 0
  red ((List.range fNDomains).map runOnNode)

/-- Stride of `TNUMAExecutor::MapReduce` (TSeq overload, line 107):
`(*args.end() - *args.begin() + fNDomains - 1) / fNDomains`, the ceiling
division of the sequence length by the domain count. -/
def numaSeqStride (b e D : Nat) : Nat := (e - b + D - 1) / D

/-- Lower bound of domain `i`'s sub-sequence (line 111):
`std::max(*args.begin(), i * stride)`. -/
def numaSubLo (b e D i : Nat) : Nat := max b (i * numaSeqStride b e D)

/-- Upper bound of domain `i`'s sub-sequence (line 111):
`std::min((i + 1) * stride, *args.end())`. -/
def numaSubHi (b e D i : Nat) : Nat := min ((i + 1) * numaSeqStride b e D) e

/-- The items of domain `i`'s sub-sequence `TSeq(lo, hi)`: the half-open
integer range `[lo, hi)` (empty when `hi` is not above `lo`). -/
def numaSubItems (b e D i : Nat) : List Nat :=
  List.range' (numaSubLo b e D i) (numaSubHi b e D i - numaSubLo b e D i)

/-- `TNUMAExecutor::MapReduce(func, TSeq, redfunc, nChunks)` (lines 104 to
119): each domain task runs the domain-local thread pool's `MapReduce`
over its sub-sequence with chunk hint `nChunks / fNDomains`, and the domain
partials are combined with the same reduction function. -/
def tnumaMapReduceSeq (D dnt : Nat) (f : Nat → β) (b e : Nat) (red : List β → β)
    (nChunks : Nat) : β :=
  red ((List.range D).map (fun i =>
    threadMapReduceItems dnt f (numaSubItems b e D i) red (nChunks / D)))

/-- Loop of `TNUMAExecutor::splitData` (lines 55 to 69), fuel-based: while
`i * stride < n - stride` (unsigned arithmetic; `stride` never exceeds `n`,
so natural subtraction agrees with the C++ value) emit the slice
`[i * stride, (i + 1) * stride)`, then emit the final slice
`[i * stride, n)`.  Exhausted fuel also emits the remaining slice, and the
fuel passed by `splitData` is always sufficient. -/
def splitDataFuel (fuel stride n : Nat) (vec : List α) (i : Nat) : List (List α) :=
  match fuel with
  | 0 => [vec.drop (i * stride)]
  | fuel + 1 =>
      if i * stride < n - stride then
        (vec.drop (i * stride)).take stride :: splitDataFuel fuel stride n vec (i + 1)
      else
        [vec.drop (i * stride)]

/-- `TNUMAExecutor::splitData(vec)` (lines 55 to 69): `stride` is the
ceiling division of the vector size by `fNDomains`, and the vector is cut
into consecutive slices of `stride` items, the last slice running to the
end. -/
def splitData (D : Nat) (vec : List α) : List (List α) :=
  splitDataFuel vec.length ((vec.length + D - 1) / D) vec.length vec 0

/-- CPU affinity of the thread executing a domain task: unpinned
(`numa_all_nodes_ptr`) or pinned to one NUMA node. -/
inductive Affinity
  | all
  | node (i : Nat)
deriving DecidableEq

/-- The `runOnNode` domain-task lambda of `TNUMAExecutor::MapReduce` (lines
74 to 80 and 90 to 96): `numa_run_on_node(i)`, then the work (the inner
thread-pool `MapReduce`, including every invocation of the user's work
function, abstracted here as an `Except` outcome), then
`numa_run_on_node_mask(numa_all_nodes_ptr)`, then return.  C++ exception
propagation leaves the function as soon as the work throws, skipping the
trailing unpin statement, so the pair returned here carries the affinity
state at exit for each path. -/
def runOnNode (work : Except String β) (i : Nat) : Except String β × Affinity :=
  match work with
  | Except.error e => (Except.error e, Affinity.node i)
  | Except.ok r => (Except.ok r, Affinity.all)

/-- `std::accumulate` with `+` over `Int`, as used by the integer-sum
reduction functions in the facade's documentation example (line 369): a
left fold of addition starting from zero. -/
def intSum : List Int → Int := fun xs => xs.foldl (· + ·) 0

/-- Left fold of a binary combiner with a start element, the shape of
every `std::accumulate`-style reduction function in this code. -/
def foldRed (g : β → β → β) (e : β) : List β → β := fun xs => xs.foldl g e

/-- `ROOT::Fit::FitUtil::LikelihoodAux` (FitUtil.h lines 49 to 93): the
per-point likelihood contribution (log value, weight, squared weight).
Numeric values are carried as integers: the claims settled here concern
control flow and counters, not floating-point rounding, and each field
stands for the SIMD-lane-summed total of the corresponding `T` value. -/
structure LhAux where
  logvalue : Int
  weight : Int
  weight2 : Int
deriving DecidableEq

/-- `LikelihoodAux::operator+` (FitUtil.h lines 56 to 58): componentwise
addition. -/
def lhAdd (a b : LhAux) : LhAux :=
  { logvalue := a.logvalue + b.logvalue, weight := a.weight + b.weight,
    weight2 := a.weight2 + b.weight2 }

/-- The `redFunction` of `EvalLogL` (FitUtil.h lines 473 to 478):
`std::accumulate` of `LikelihoodAux` values with `+` from the default
(zero) element. -/
def lhRed (xs : List LhAux) : LhAux :=
  xs.foldl lhAdd { logvalue := 0, weight := 0, weight2 := 0 }

/-- Modelled from the spec: `FitUtil::setAutomaticChunking` (declared at
FitUtil.h line 306, body not in this snapshot): the automatic chunk-count
heuristic of section 4.1 with a fixed constant multiplier (section 9
treats the multiplier as a tuning constant), clamped to `[1, nEvents]`. -/
def setAutomaticChunking (nEvents : Nat) : Nat := max 1 (min nEvents 16)

/-- Observable outcome of one `EvalLogL` / `EvalChi2` call: the returned
double (as an integer, see `LhAux`), the value left in the by-reference
`nPoints` output parameter, and whether any error was reported through
`Error` / `MATH_ERROR_MSG` during the call. -/
structure EvalOut where
  ret : Int
  nPoints : Nat
  errorReported : Bool
deriving DecidableEq

/-- `FitUtil::Evaluate<T>::EvalLogL` (FitUtil.h lines 397 to 572), as the
skeleton that drives its outputs.  `aux i` is the `LikelihoodAux` produced
by `mapFunction(i)`; `m = n / vecSize` is the number of map invocations;
`normalizeFunc` is the constant `false` of line 411, so its branches are
dead.  The policy dispatch (lines 484 to 503): policy 0 folds the `aux`
values serially; policy 1 runs them through `ROOT::TThreadExecutor`, which
this snapshot aliases to `TNUMAExecutor` (TThreadExecutor.hxx), over
`TSeq(0, m)` with the automatic chunk count when `nChunks` is zero; policy
2 does nothing (its body is commented out) and reports nothing; any other
policy prints an `Error` and also computes nothing.  `nPoints` counts the
`nPoints++` of `mapFunction` on top of the incoming reference value.  In
the extended-likelihood block (lines 516 to 564), when no range is set and
the function is non-zero at infinity, `MATH_ERROR_MSG` fires and the
function returns 0 early, leaving `nPoints` un-reset; every other path
falls through to `nPoints = 0; return -logl` (lines 569 to 570).
`nuTotParam` abstracts the integral evaluation producing `nuTot`. -/
def evalLogL (aux : Nat → LhAux) (iWeight : Int) (extended : Bool)
    (nPoints0 executionPolicy nChunks n vecSize rangeSize : Nat)
    (funcNonzeroAtInf : Bool) (nuTotParam : Int) (numaD numaPS : Nat) : EvalOut :=
  let m := n / vecSize
  let sums : LhAux :=
    if executionPolicy = 0 then lhRed ((List.range m).map aux)
    else if executionPolicy = 1 then
      tnumaMapReduceSeq numaD numaPS aux 0 m lhRed
        (if nChunks ≠ 0 then nChunks else setAutomaticChunking m)
    else { logvalue := 0, weight := 0, weight2 := 0 }
  let nPts : Nat :=
    if executionPolicy = 0 then nPoints0 + m
    else if executionPolicy = 1 then
      nPoints0 + ((List.range numaD).map (fun i => (numaSubItems 0 m numaD i).length)).sum
    else nPoints0
  let reported : Bool := decide (3 ≤ executionPolicy)
  let logl := sums.logvalue
  let sumW := sums.weight
  let sumW2 := sums.weight2
  if extended then
    if rangeSize = 0 ∧ funcNonzeroAtInf then
      { ret := 0, nPoints := nPts, errorReported := true }
    else
      let extendedTerm : Int :=
        if iWeight ≠ 2 then -nuTotParam else -((sumW2 / sumW) * nuTotParam)
      { ret := -(logl + extendedTerm), nPoints := 0, errorReported := reported }
  else
    { ret := -logl, nPoints := 0, errorReported := reported }

/-- `FitUtil::Evaluate<T>::EvalChi2` (FitUtil.h lines 310 to 395), as the
skeleton that drives its outputs.  `chi i` is the chi-square contribution
of `mapFunction(i)` (lane-summed, as in `LhAux`).  The entry sets
`nPoints = 0` (line 319, later overwritten); unsupported fit options
(`badOpts`, line 330) print an `Error` but the computation continues; the
dispatch runs policy 0 serially and policy 1 through the
`TNUMAExecutor`-aliased thread executor, while any policy of 2 or more
(the multiprocess branch is commented out) prints an `Error` and computes
nothing; finally `nPoints = n` (line 388) and the sum is returned, on
every path. -/
def evalChi2 (chi : Nat → Int) (badOpts : Bool)
    (nPoints0 executionPolicy nChunks n vecSize numaD numaPS : Nat) : EvalOut :=
  let m := n / vecSize
  let res : Int :=
    if executionPolicy = 0 then ((List.range m).map chi).foldl (· + ·) 0
    else if executionPolicy = 1 then
      tnumaMapReduceSeq numaD numaPS chi 0 m intSum
        (if nChunks ≠ 0 then nChunks else setAutomaticChunking m)
    else 0
  let reported : Bool := badOpts || decide (2 ≤ executionPolicy)
  { ret := res, nPoints := n, errorReported := reported }

/-! Helper lemmas shared by the claim theorems. -/

theorem chunksOfFuel_flatten (stride : Nat) :
    ∀ (fuel : Nat) (xs : List α), (chunksOfFuel fuel stride xs).flatten = xs := by
  intro fuel
  induction fuel with
  | zero =>
    intro xs
    cases xs with
    | nil => simp [chunksOfFuel]
    | cons x rest => simp [chunksOfFuel]
  | succ fuel ih =>
    intro xs
    cases xs with
    | nil => simp [chunksOfFuel]
    | cons x rest =>
      by_cases hs : stride = 0
      · simp [chunksOfFuel, hs]
      · simp only [chunksOfFuel, if_neg hs, List.flatten_cons, ih]
        exact List.take_append_drop stride (x :: rest)

theorem chunkList_flatten (ps c : Nat) (xs : List α) : (chunkList ps c xs).flatten = xs := by
  cases xs with
  | nil => simp [chunkList]
  | cons x rest => simpa [chunkList] using chunksOfFuel_flatten _ _ _

theorem texecConstruct_mt_imt (imt : Bool)
    (hok : texecConstruct imt ExecutionPolicy.kMultithread =
      Except.ok ExecutionPolicy.kMultithread) : imt = true := by
  cases imt with
  | true => rfl
  | false => simp [texecConstruct] at hok

/-- A reduction function is chunk-independent when reducing the per-chunk
reductions equals reducing the concatenation, the contract stated in the
facade's documentation (lines 364 to 365) and in the spec's data model. -/
theorem texecMapReduceN_canonical (imt : Bool) (p : ExecutionPolicy) (ps : Nat)
    (f : Unit → β) (n : Nat) (red : List β → β) (c : Nat)
    (hok : texecConstruct imt p = Except.ok p)
    (hred : ∀ L : List (List β), red (L.map red) = red L.flatten) :
    texecMapReduceN imt p ps f n red c = red ((List.range n).map (fun _ => f ())) := by
  cases p with
  | kSerial =>
    simp [texecMapReduceN, texecMapNChunked, texecMapN, texecReduce, seqMapN]
  | kMultiprocess =>
    simp [texecMapReduceN, texecMapNChunked, texecMapN, texecReduce, procMapN]
  | kMultithread =>
    have himt : imt = true := texecConstruct_mt_imt imt hok
    subst himt
    simp only [texecMapReduceN, texecMapNChunked, texecReduce,
      threadMapChunkedN, threadChunkedPartials]
    simp only [and_self, if_true]
    have h1 : (chunkList ps c (List.range n)).map
        (fun ch => red (ch.map (fun _ => f ()))) =
        ((chunkList ps c (List.range n)).map (List.map (fun _ => f ()))).map red := by
      simp [List.map_map, Function.comp]
    rw [h1, hred, ← List.map_flatten, chunkList_flatten]

theorem foldl_shift (g : β → β → β) (e : β)
    (hassoc : ∀ a b d, g (g a b) d = g a (g b d))
    (hlid : ∀ a, g e a = a) (hrid : ∀ a, g a e = a) :
    ∀ (xs : List β) (a : β), List.foldl g a xs = g a (List.foldl g e xs) := by
  intro xs
  induction xs with
  | nil => intro a; simp [hrid]
  | cons x xs ih =>
    intro a
    simp only [List.foldl_cons]
    rw [ih (g a x), hassoc, hlid x, ← ih x]

theorem foldRed_append (g : β → β → β) (e : β)
    (hassoc : ∀ a b d, g (g a b) d = g a (g b d))
    (hlid : ∀ a, g e a = a) (hrid : ∀ a, g a e = a) (xs ys : List β) :
    foldRed g e (xs ++ ys) = g (foldRed g e xs) (foldRed g e ys) := by
  simp only [foldRed, List.foldl_append]
  exact foldl_shift g e hassoc hlid hrid ys (List.foldl g e xs)

theorem foldRed_partition (g : β → β → β) (e : β)
    (hassoc : ∀ a b d, g (g a b) d = g a (g b d))
    (hlid : ∀ a, g e a = a) (hrid : ∀ a, g a e = a) :
    ∀ L : List (List β), foldRed g e (L.map (foldRed g e)) = foldRed g e L.flatten := by
  intro L
  induction L with
  | nil => rfl
  | cons xs L ih =>
    simp only [List.map_cons, List.flatten_cons]
    rw [foldRed_append g e hassoc hlid hrid xs L.flatten, ← ih]
    simp only [foldRed, List.foldl_cons]
    rw [hlid, foldl_shift g e hassoc hlid hrid _ (List.foldl g e xs)]

theorem intSum_partition :
    ∀ L : List (List Int), intSum (L.map intSum) = intSum L.flatten := by
  have h : intSum = foldRed (· + ·) (0 : Int) := rfl
  rw [h]
  exact foldRed_partition _ _ (fun a b d => add_assoc a b d) (fun a => zero_add a)
    (fun a => add_zero a)

theorem range'_add_own (a m n : Nat) :
    List.range' a (m + n) = List.range' a m ++ List.range' (a + m) n := by
  induction m generalizing a with
  | zero => simp
  | succ m ih =>
    have h1 : a + (m + 1) = (a + 1) + m := by omega
    have h2 : m + 1 + n = (m + n) + 1 := by omega
    rw [h2, List.range'_succ, ih (a + 1), List.range'_succ, h1]
    simp

theorem ceil_div_mul_ge (n D : Nat) (hD : 1 ≤ D) : n ≤ D * ((n + D - 1) / D) := by
  have key : ∀ t r : Nat, t + r = n + D - 1 → r < D → n ≤ t := by
    intro t r h1 h2
    omega
  exact key _ _ (Nat.div_add_mod (n + D - 1) D) (Nat.mod_lt _ (by omega))

theorem full_blocks (s : Nat) :
    ∀ D : Nat, ((List.range D).map (fun i => List.range' (i * s) s)).flatten =
      List.range' 0 (D * s) := by
  intro D
  induction D with
  | zero => simp
  | succ D ih =>
    rw [List.range_succ, List.map_append, List.flatten_append, ih]
    have h1 : (D + 1) * s = D * s + s := by ring
    rw [h1, range'_add_own 0 (D * s) s]
    simp

theorem cover_aux (s e : Nat) :
    ∀ D : Nat, e ≤ D * s →
      ((List.range D).map
        (fun i => List.range' (i * s) (min ((i + 1) * s) e - i * s))).flatten =
      List.range' 0 e := by
  intro D
  induction D with
  | zero =>
    intro h
    have he : e = 0 := by omega
    simp [he]
  | succ D ih =>
    intro h
    rw [List.range_succ, List.map_append, List.flatten_append]
    by_cases hc : e ≤ D * s
    · rw [ih hc]
      have h1 : (D + 1) * s = D * s + s := by ring
      have h2 : min ((D + 1) * s) e = e := by omega
      have h3 : e - D * s = 0 := by omega
      simp [h2, h3]
    · have hlt : D * s < e := by omega
      have hfull : (List.range D).map
          (fun i => List.range' (i * s) (min ((i + 1) * s) e - i * s)) =
          (List.range D).map (fun i => List.range' (i * s) s) := by
        apply List.map_congr_left
        intro i hi
        have hiD : i < D := List.mem_range.mp hi
        have hle : (i + 1) * s ≤ D * s := Nat.mul_le_mul_right s (by omega)
        have h2 : min ((i + 1) * s) e = (i + 1) * s := by omega
        have h3 : (i + 1) * s - i * s = s := by
          have h4 : (i + 1) * s = i * s + s := by ring
          omega
        rw [h2, h3]
      rw [hfull, full_blocks s D]
      simp only [List.map_cons, List.map_nil, List.flatten_cons, List.flatten_nil,
        List.append_nil]
      have h2 : min ((D + 1) * s) e = e := by
        have h5 : (D + 1) * s = D * s + s := by ring
        omega
      rw [h2]
      have h4 : e = D * s + (e - D * s) := by omega
      conv_rhs => rw [h4, range'_add_own 0 (D * s) (e - D * s)]
      rw [Nat.zero_add]

theorem splitDataFuel_flatten (s n : Nat) (vec : List α) :
    ∀ (fuel i : Nat), (splitDataFuel fuel s n vec i).flatten = vec.drop (i * s) := by
  intro fuel
  induction fuel with
  | zero => intro i; simp [splitDataFuel]
  | succ fuel ih =>
    intro i
    by_cases hc : i * s < n - s
    · simp only [splitDataFuel, if_pos hc, List.flatten_cons, ih (i + 1)]
      have h1 : (i + 1) * s = i * s + s := by ring
      rw [h1, ← List.drop_drop]
      exact List.take_append_drop s (vec.drop (i * s))
    · simp [splitDataFuel, hc]

theorem splitDataFuel_length_pos (s n : Nat) (vec : List α) :
    ∀ (fuel i : Nat), 1 ≤ (splitDataFuel fuel s n vec i).length := by
  intro fuel
  induction fuel with
  | zero => intro i; simp [splitDataFuel]
  | succ fuel ih =>
    intro i
    by_cases hc : i * s < n - s
    · simp [splitDataFuel, hc]
    · simp [splitDataFuel, hc]

theorem splitDataFuel_length_le (s n D : Nat) (vec : List α) (hn : n ≤ D * s) :
    ∀ (fuel i : Nat), i < D → (splitDataFuel fuel s n vec i).length ≤ D - i := by
  intro fuel
  induction fuel with
  | zero => intro i hi; simp [splitDataFuel]; omega
  | succ fuel ih =>
    intro i hi
    by_cases hc : i * s < n - s
    · have hstep : (i + 1) * s = i * s + s := by ring
      have hfit : (i + 1) * s < n := by omega
      have hi1 : i + 1 < D := by
        by_contra hcon
        have hDle : D ≤ i + 1 := by omega
        have : D * s ≤ (i + 1) * s := Nat.mul_le_mul_right s hDle
        omega
      simp only [splitDataFuel, if_pos hc, List.length_cons]
      have := ih (i + 1) hi1
      omega
    · simp [splitDataFuel, hc]; omega

/-! Claim theorems. -/

/-- Claim C1 (code slip in the nTimes overload): evaluating
`TNUMAExecutor::MapReduce` with 2 NUMA domains, 2 threads per domain, the
constant-1 work function, `nTimes = 10`, integer-sum reduction and the
default chunk hint yields 20, not 10: each domain task maps all 10 items
(the overload never divides `nTimes` across domains, unlike the TSeq and
vector overloads) and the domain totals are then summed, so every work
item is processed once per domain. -/
theorem c1_numa_ntimes_runs_per_domain :
    tnumaMapReduceN 2 2 (fun _ => (1 : Int)) 10 intSum 0 = 20 := by decide

/-- Claim C2 (confirmed): for a fixed work function, a fixed reduction
function satisfying the documented chunk-independence contract (reducing
per-chunk reductions equals reducing the concatenation, facade header
lines 364 to 365), a fixed call count and a fixed chunk hint, the facade's
`MapReduce` returns equal final results under any two successfully
constructed policies (Serial, MultiThread, MultiProcess), with any pool
sizes. -/
theorem c2_backend_equivalence (imt : Bool) (p p' : ExecutionPolicy) (ps ps' : Nat)
    (f : Unit → β) (n : Nat) (red : List β → β) (c : Nat)
    (hok : texecConstruct imt p = Except.ok p)
    (hok' : texecConstruct imt p' = Except.ok p')
    (hred : ∀ L : List (List β), red (L.map red) = red L.flatten) :
    texecMapReduceN imt p ps f n red c = texecMapReduceN imt p' ps' f n red c := by
  rw [texecMapReduceN_canonical imt p ps f n red c hok hred,
    texecMapReduceN_canonical imt p' ps' f n red c hok' hred]

theorem c2_backend_equivalence_witness :
    texecMapReduceN true ExecutionPolicy.kSerial 2 (fun _ => (1 : Int)) 10 intSum 0
      = texecMapReduceN true ExecutionPolicy.kMultithread 2 (fun _ => (1 : Int)) 10 intSum 0 :=
  c2_backend_equivalence true ExecutionPolicy.kSerial ExecutionPolicy.kMultithread 2 2
    (fun _ => (1 : Int)) 10 intSum 0 rfl rfl intSum_partition

/-- Claim C3 (corrected): an unsupported policy does fail at construction
with a configuration error, and only then (first conjunct); but at call
time `FitUtil::Evaluate<T>::EvalLogL` silently skips execution policy 2
(multiprocess): it reports no error and returns normally (second
conjunct), while an unknown policy of 3 or more does report an error
(third conjunct).  The paths excluded by the hypothesis are the
extended-likelihood early error return, which reports for a different
reason. -/
theorem c3_construction_fails_call_skips (imt : Bool) (p : ExecutionPolicy)
    (aux : Nat → LhAux) (iW : Int) (ext : Bool) (nP0 c n vs rs : Nat) (fnz : Bool)
    (nt : Int) (D ps ep : Nat)
    (hpath : ¬(ext = true ∧ rs = 0 ∧ fnz = true)) :
    ((texecConstruct imt p = Except.ok p) ↔
      ¬(p = ExecutionPolicy.kMultithread ∧ imt = false))
    ∧ (evalLogL aux iW ext nP0 2 c n vs rs fnz nt D ps).errorReported = false
    ∧ (3 ≤ ep → (evalLogL aux iW ext nP0 ep c n vs rs fnz nt D ps).errorReported = true) := by
  refine ⟨?_, ?_, ?_⟩
  · cases p <;> cases imt <;> simp [texecConstruct]
  · cases ext with
    | false => simp [evalLogL]
    | true =>
      have hcond : ¬(rs = 0 ∧ fnz = true) := fun hx => hpath ⟨rfl, hx.1, hx.2⟩
      simp [evalLogL, hcond]
  · intro h3
    cases ext with
    | false => simp [evalLogL, h3]
    | true =>
      have hcond : ¬(rs = 0 ∧ fnz = true) := fun hx => hpath ⟨rfl, hx.1, hx.2⟩
      simp [evalLogL, hcond, h3]

theorem c3_construction_fails_call_skips_witness :
    ¬(texecConstruct false ExecutionPolicy.kMultithread
        = Except.ok ExecutionPolicy.kMultithread)
    ∧ (evalLogL (fun _ => { logvalue := 1, weight := 0, weight2 := 0 }) 0 false 0 2 0 4 1 0
        false 0 1 1).errorReported = false
    ∧ (evalLogL (fun _ => { logvalue := 1, weight := 0, weight2 := 0 }) 0 false 0 7 0 4 1 0
        false 0 1 1).errorReported = true := by
  have h := c3_construction_fails_call_skips false ExecutionPolicy.kMultithread
    (fun _ => { logvalue := 1, weight := 0, weight2 := 0 }) 0 false 0 0 4 1 0 false 0 1 1 7
    (by decide)
  exact ⟨fun hx => (h.1.mp hx) ⟨rfl, rfl⟩, h.2.1, h.2.2 (by decide)⟩

/-- Counterexample for claim C3 as stated: calling `EvalLogL` with
execution policy 2 (multiprocess, whose support is not compiled in) over 8
points reports no error at all and returns the value 0 normally — the
unavailable backend is silently skipped rather than reported like a
configuration error. -/
theorem c3_eval_logl_policy2_silent :
    (evalLogL (fun _ => { logvalue := 1, weight := 0, weight2 := 0 }) 0 false 0 2 0 8 1 1
        false 0 1 1).errorReported = false
    ∧ (evalLogL (fun _ => { logvalue := 1, weight := 0, weight2 := 0 }) 0 false 0 2 0 8 1 1
        false 0 1 1).ret = 0 := by decide

/-- Claim C4 (confirmed): the facade's chunked `Map` forwards to the
thread-pool backend's chunked algorithm exactly when the configured policy
is multithread; for any other successfully constructed policy the chunked
`Map` equals the plain item-at-a-time `Map` of the selected backend (the
reduction function and chunk hint are ignored) and the chunked `MapReduce`
equals that plain `Map` followed by one full reduction. -/
theorem c4_facade_chunked_forwarding (imt : Bool) (p : ExecutionPolicy) (ps : Nat)
    (f : Unit → β) (n : Nat) (red : List β → β) (c : Nat)
    (hok : texecConstruct imt p = Except.ok p) :
    (p = ExecutionPolicy.kMultithread →
        texecMapNChunked imt p ps f n red c = threadMapChunkedN ps f n red c)
    ∧ (p ≠ ExecutionPolicy.kMultithread →
        texecMapNChunked imt p ps f n red c = texecMapN imt p f n
        ∧ texecMapReduceN imt p ps f n red c = red (texecMapN imt p f n)) := by
  constructor
  · intro hp
    subst hp
    have himt := texecConstruct_mt_imt imt hok
    subst himt
    simp [texecMapNChunked]
  · intro hp
    have hcond : ¬(imt = true ∧ p = ExecutionPolicy.kMultithread) := fun hx => hp hx.2
    exact ⟨by simp [texecMapNChunked, hcond],
      by simp [texecMapReduceN, texecReduce, texecMapNChunked, hcond]⟩

theorem c4_facade_chunked_forwarding_witness :
    (ExecutionPolicy.kSerial = ExecutionPolicy.kMultithread →
        texecMapNChunked true ExecutionPolicy.kSerial 2 (fun _ => (1 : Int)) 6 intSum 3
          = threadMapChunkedN 2 (fun _ => (1 : Int)) 6 intSum 3)
    ∧ (ExecutionPolicy.kSerial ≠ ExecutionPolicy.kMultithread →
        texecMapNChunked true ExecutionPolicy.kSerial 2 (fun _ => (1 : Int)) 6 intSum 3
          = texecMapN true ExecutionPolicy.kSerial (fun _ => (1 : Int)) 6
        ∧ texecMapReduceN true ExecutionPolicy.kSerial 2 (fun _ => (1 : Int)) 6 intSum 3
          = intSum (texecMapN true ExecutionPolicy.kSerial (fun _ => (1 : Int)) 6)) :=
  c4_facade_chunked_forwarding true ExecutionPolicy.kSerial 2 (fun _ => (1 : Int)) 6 intSum 3
    rfl

/-- Claim C5 (corrected, restricted to sequences starting at 0): for a
sequence `[0, e)` and any domain count of at least 1, the per-domain
sub-sequences computed by the TSeq overload of `TNUMAExecutor::MapReduce`
concatenate, in domain order, to exactly `[0, e)` (hence they are
contiguous, pairwise disjoint and cover the input), and the `MapReduce`
is by definition the reduction of the per-domain thread-pool chunked
map-reductions of those sub-sequences with chunk hint `nChunks / D`. -/
theorem c5_seq_split_cover_from_zero (D dnt e c : Nat) (f : Nat → β) (red : List β → β)
    (hD : 1 ≤ D) :
    ((List.range D).map (numaSubItems 0 e D)).flatten = List.range e
    ∧ tnumaMapReduceSeq D dnt f 0 e red c
      = red ((List.range D).map (fun i =>
          red (threadChunkedPartials dnt (c / D) f (numaSubItems 0 e D i) red))) := by
  constructor
  · have hst : numaSeqStride 0 e D = (e + D - 1) / D := by simp [numaSeqStride]
    have hle : e ≤ D * numaSeqStride 0 e D := by
      rw [hst]; exact ceil_div_mul_ge e D hD
    have heq : (List.range D).map (numaSubItems 0 e D)
        = (List.range D).map (fun i => List.range' (i * numaSeqStride 0 e D)
            (min ((i + 1) * numaSeqStride 0 e D) e - i * numaSeqStride 0 e D)) := by
      apply List.map_congr_left
      intro i _
      simp [numaSubItems, numaSubLo, numaSubHi, Nat.zero_max]
    rw [heq]
    conv_rhs => rw [List.range_eq_range']
    exact cover_aux (numaSeqStride 0 e D) e D hle
  · rfl

theorem c5_seq_split_cover_from_zero_witness :
    ((List.range 2).map (numaSubItems 0 7 2)).flatten = List.range 7
    ∧ tnumaMapReduceSeq 2 1 (fun i => (i : Int)) 0 7 intSum 5
      = intSum ((List.range 2).map (fun i =>
          intSum (threadChunkedPartials 1 (5 / 2) (fun i => (i : Int))
            (numaSubItems 0 7 2 i) intSum))) :=
  c5_seq_split_cover_from_zero 2 1 7 5 (fun i => (i : Int)) intSum (by decide)

/-- Counterexample for claim C5 as stated: for the sequence `[10, 20)` with
2 domains, the sub-sequences computed by the TSeq overload (`stride = 5`,
domain `i` gets `[max(10, 5 i), min(5 (i + 1), 20))`) are all empty, so
their union is not `[10, 20)` — the split only covers inputs that start at
0. -/
theorem c5_seq_split_drops_offset_range :
    ((List.range 2).map (numaSubItems 10 20 2)).flatten ≠ List.range' 10 10 := by decide

/-- Claim C6 (corrected): the `runOnNode` domain task restores the default
(unpinned) affinity before returning on the normal path, but when the work
(the user's function or the inner thread-pool `MapReduce`) fails, the
exception propagates past the un-pin statement and the executing thread is
left pinned to the domain's node. -/
theorem c6_affinity_on_exit_paths (r : β) (e : String) (i : Nat) :
    (runOnNode (Except.ok r) i).2 = Affinity.all
    ∧ (runOnNode (Except.error e : Except String β) i).2 = Affinity.node i :=
  ⟨rfl, rfl⟩

/-- Counterexample for claim C6 as stated: a domain task whose work fails
exits with the thread still pinned to NUMA node 0, not with the default
affinity restored. -/
theorem c6_failure_leaves_pinned :
    (runOnNode (Except.error "error in work function" : Except String Nat) 0).2
      ≠ Affinity.all := by decide

/-- Claim C7 (confirmed): for any reduction built as a fold of an
associative and commutative combiner with an identity element (e.g.
integer sum) over the fixed 1000-item input, the facade's `MapReduce`
returns the identical final value for any two chunk hints (in particular
1, 4 and 0/automatic) and any two successfully constructed backends and
pool sizes. -/
theorem c7_chunk_invariance (imt : Bool) (p p' : ExecutionPolicy) (ps ps' c c' : Nat)
    (f : Unit → β) (g : β → β → β) (e : β)
    (hassoc : ∀ a b d, g (g a b) d = g a (g b d))
    (hcomm : ∀ a b, g a b = g b a)
    (hlid : ∀ a, g e a = a) (hrid : ∀ a, g a e = a)
    (hok : texecConstruct imt p = Except.ok p)
    (hok' : texecConstruct imt p' = Except.ok p') :
    texecMapReduceN imt p ps f 1000 (foldRed g e) c
      = texecMapReduceN imt p' ps' f 1000 (foldRed g e) c' := by
  rw [texecMapReduceN_canonical imt p ps f 1000 (foldRed g e) c hok
      (foldRed_partition g e hassoc hlid hrid),
    texecMapReduceN_canonical imt p' ps' f 1000 (foldRed g e) c' hok'
      (foldRed_partition g e hassoc hlid hrid)]

theorem c7_chunk_invariance_witness :
    texecMapReduceN true ExecutionPolicy.kSerial 4 (fun _ => (3 : Int)) 1000
        (foldRed (· + ·) 0) 1
      = texecMapReduceN true ExecutionPolicy.kMultithread 4 (fun _ => (3 : Int)) 1000
        (foldRed (· + ·) 0) 4 :=
  c7_chunk_invariance true ExecutionPolicy.kSerial ExecutionPolicy.kMultithread 4 4 1 4
    (fun _ => (3 : Int)) (· + ·) 0 (fun a b d => add_assoc a b d) (fun a b => add_comm a b)
    (fun a => zero_add a) (fun a => add_zero a) rfl rfl

/-- Claim C8 (corrected): the facade's `MapReduce` over zero work items
does not fail; on every successfully constructed backend it returns the
reduction function applied to the empty result collection (so an
integer-sum reduction silently yields 0). -/
theorem c8_empty_input_reduces_empty (imt : Bool) (p : ExecutionPolicy) (ps : Nat)
    (f : Unit → β) (red : List β → β) (c : Nat)
    (hok : texecConstruct imt p = Except.ok p) :
    texecMapReduceN imt p ps f 0 red c = red [] := by
  cases p with
  | kSerial => simp [texecMapReduceN, texecMapNChunked, texecMapN, seqMapN, texecReduce]
  | kMultiprocess => simp [texecMapReduceN, texecMapNChunked, texecMapN, procMapN, texecReduce]
  | kMultithread =>
    have himt := texecConstruct_mt_imt imt hok
    subst himt
    simp [texecMapReduceN, texecMapNChunked, threadMapChunkedN, threadChunkedPartials,
      chunkList, texecReduce]

theorem c8_empty_input_reduces_empty_witness :
    texecMapReduceN true ExecutionPolicy.kSerial 1 (fun _ => (1 : Int)) 0 intSum 0
      = intSum [] :=
  c8_empty_input_reduces_empty true ExecutionPolicy.kSerial 1 (fun _ => (1 : Int)) intSum 0 rfl

/-- Counterexample for claim C8 as stated: `MapReduce` with zero work
items, the constant-1 work function and integer-sum reduction on the
multiprocess backend returns the value 0 — a silently produced value (the
reduction of an empty vector), not a defined empty-input error. -/
theorem c8_empty_input_returns_value :
    texecMapReduceN true ExecutionPolicy.kMultiprocess 1 (fun _ => (1 : Int)) 0 intSum 0
      = 0 := by decide

/-- Claim C9 (confirmed): for a non-empty input vector and a domain count
of at least 1, `TNUMAExecutor::splitData` returns between 1 and
`fNDomains` slices that concatenate, in input order, to exactly the input
vector (hence they are contiguous, pairwise disjoint and cover the input);
the accompanying witness shows a 1-element vector with 2 domains producing
just 1 slice, strictly fewer than the domain count. -/
theorem c9_splitData_partition (D : Nat) (vec : List α) (hD : 1 ≤ D) (hv : vec ≠ []) :
    (splitData D vec).flatten = vec ∧ 1 ≤ (splitData D vec).length
    ∧ (splitData D vec).length ≤ D := by
  refine ⟨?_, ?_, ?_⟩
  · have h := splitDataFuel_flatten ((vec.length + D - 1) / D) vec.length vec vec.length 0
    simpa [splitData] using h
  · exact splitDataFuel_length_pos _ _ _ _ _
  · have hn2 : vec.length ≤ D * ((vec.length + D - 1) / D) := ceil_div_mul_ge vec.length D hD
    have h := splitDataFuel_length_le ((vec.length + D - 1) / D) vec.length D vec hn2
      vec.length 0 (by omega)
    simpa [splitData] using h

theorem c9_splitData_partition_witness :
    ((splitData 2 [(5 : Int)]).flatten = [5] ∧ 1 ≤ (splitData 2 [(5 : Int)]).length
      ∧ (splitData 2 [(5 : Int)]).length ≤ 2)
    ∧ (splitData 2 [(5 : Int)]).length < 2 :=
  ⟨c9_splitData_partition 2 [(5 : Int)] (by decide) (by decide), by decide⟩

/-- Claim C10 (corrected): `EvalLogL` sets the by-reference `nPoints`
output to 0 on every return path except the extended-likelihood early
error return (no range set and function non-zero at infinity), which
returns 0 leaving `nPoints` at its incremented value; `EvalChi2` sets
`nPoints` to `data.Size()` on every return path, regardless of policy and
of the incoming value. -/
theorem c10_npoints_contract (aux : Nat → LhAux) (iW : Int) (ext : Bool)
    (nP0 ep c n vs rs : Nat) (fnz : Bool) (nt : Int) (D ps : Nat)
    (chi : Nat → Int) (bo : Bool) (nP0' ep' c' n' vs' D' ps' : Nat)
    (hpath : ¬(ext = true ∧ rs = 0 ∧ fnz = true)) :
    (evalLogL aux iW ext nP0 ep c n vs rs fnz nt D ps).nPoints = 0
    ∧ (evalChi2 chi bo nP0' ep' c' n' vs' D' ps').nPoints = n' := by
  constructor
  · cases ext with
    | false => simp [evalLogL]
    | true =>
      have hcond : ¬(rs = 0 ∧ fnz = true) := fun hx => hpath ⟨rfl, hx.1, hx.2⟩
      simp [evalLogL, hcond]
  · rfl

theorem c10_npoints_contract_witness :
    (evalLogL (fun _ => { logvalue := 2, weight := 0, weight2 := 0 }) 0 false 0 0 0 6 1 1
        false 0 1 1).nPoints = 0
    ∧ (evalChi2 (fun i => (i : Int)) false 7 0 0 5 1 1 1).nPoints = 5 :=
  c10_npoints_contract (fun _ => { logvalue := 2, weight := 0, weight2 := 0 }) 0 false 0 0 0
    6 1 1 false 0 1 1 (fun i => (i : Int)) false 7 0 0 5 1 1 1 (by decide)

/-- Counterexample for claim C10 as stated: an `EvalLogL` call that takes
the extended-likelihood early error return (extended fit, no range set,
function non-zero at infinity, serial policy, 3 points) returns normally
with the value 0 while leaving `nPoints` at 3, not 0. -/
theorem c10_logl_early_return_npoints :
    (evalLogL (fun _ => { logvalue := 1, weight := 0, weight2 := 0 }) 0 true 0 0 0 3 1 0
        true 0 1 1).nPoints = 3
    ∧ (evalLogL (fun _ => { logvalue := 1, weight := 0, weight2 := 0 }) 0 true 0 0 0 3 1 0
        true 0 1 1).ret = 0 := by decide

end RootExec
